import Mathlib

/-!
Shallow embedding of src/orchestrator_eval_ollama.py.

Strings are modelled as lists of characters (`Str`), Python `None` and
exceptions as `Option` and `Except`, and the `subprocess` boundary as an
oracle function from (model, prompt) to an abstract process outcome.
Brace characters are written via `Char.ofNat` throughout.
-/

namespace OrchestratorEval

abbrev Str := List Char

def lbrace : Char := Char.ofNat 123

def rbrace : Char := Char.ofNat 125

def tl (s : String) : Str := s.toList

/-- JSON values as produced by Python json.loads: null, booleans,
integers, non-integer numbers (kept as their lexeme), strings, arrays,
and objects (insertion-ordered key/value lists with unique keys, as a
Python dict). -/
inductive JValue where
  | null : JValue
  | bool (b : Bool) : JValue
  | num (n : Int) : JValue
  | fnum (raw : Str) : JValue
  | str (s : Str) : JValue
  | arr (items : List JValue) : JValue
  | obj (fields : List (Str × JValue)) : JValue

/-- Python dict insertion: an existing key keeps its position and gets the
new value (hence JSON duplicate keys resolve last-wins), a new key is
appended. -/
def dictInsert (fs : List (Str × JValue)) (k : Str) (v : JValue) : List (Str × JValue) :=
  match fs with
  | [] => [(k, v)]
  | (k0, v0) :: rest =>
    if k0 = k then (k0, v) :: rest else (k0, v0) :: dictInsert rest k v

/-- Python dict lookup by key. -/
def lookupField (k : Str) (fs : List (Str × JValue)) : Option JValue :=
  match fs with
  | [] => none
  | (k0, v0) :: rest => if k0 = k then some v0 else lookupField k rest

/-- JSON inter-token whitespace accepted by json.loads. -/
def isJsonWs (c : Char) : Bool :=
  c == ' ' || c == '\t' || c == '\n' || c == '\r'

def skipWs (s : Str) : Str := s.dropWhile isJsonWs

def hexVal (c : Char) : Option Nat :=
  if '0' ≤ c ∧ c ≤ '9' then some (c.toNat - 48)
  else if 'a' ≤ c ∧ c ≤ 'f' then some (c.toNat - 87)
  else if 'A' ≤ c ∧ c ≤ 'F' then some (c.toNat - 55)
  else none

def escChar (e : Char) : Option Char :=
  if e = '\"' then some '\"'
  else if e = '\\' then some '\\'
  else if e = '/' then some '/'
  else if e = 'b' then some (Char.ofNat 8)
  else if e = 'f' then some (Char.ofNat 12)
  else if e = 'n' then some '\n'
  else if e = 'r' then some '\r'
  else if e = 't' then some '\t'
  else none

/-- Body of a JSON string literal, after the opening quote: plain
characters, backslash escapes, and four-digit hex escapes; unescaped
control characters are rejected (json.loads strict mode). Returns the
decoded text and the rest of the input after the closing quote. -/
def parseStringBody : Nat → Str → Option (Str × Str)
  | 0, _ => none
  | _ + 1, [] => none
  | fuel + 1, c :: rest =>
    if c = '\"' then some ([], rest)
    else if c = '\\' then
      match rest with
      | [] => none
      | e :: r2 =>
        if e = 'u' then
          match r2 with
          | h1 :: h2 :: h3 :: h4 :: r3 =>
            match hexVal h1, hexVal h2, hexVal h3, hexVal h4 with
            | some a, some b, some c4, some d =>
              match parseStringBody fuel r3 with
              | some (s, r) => some (Char.ofNat (((a * 16 + b) * 16 + c4) * 16 + d) :: s, r)
              | none => none
            | _, _, _, _ => none
          | _ => none
        else
          match escChar e with
          | none => none
          | some ch =>
            match parseStringBody fuel r2 with
            | some (s, r) => some (ch :: s, r)
            | none => none
    else if c.toNat < 32 then none
    else
      match parseStringBody fuel rest with
      | some (s, r) => some (c :: s, r)
      | none => none

def digitsToNat (ds : Str) : Nat :=
  ds.foldl (fun acc d => acc * 10 + (d.toNat - 48)) 0

/-- JSON number per the json.loads grammar: optional minus, an integer
part without redundant leading zeros, optional fraction and exponent.
Pure integers become `JValue.num`; anything with a fraction or exponent
(a Python float) keeps its lexeme as `JValue.fnum`. -/
def parseNumber (s : Str) : Option (JValue × Str) :=
  let sgn : Str × Bool × Str :=
    match s with
    | c :: r => if c = '-' then (['-'], true, r) else ([], false, s)
    | [] => ([], false, s)
  match sgn with
  | (sgnChars, neg, s1) =>
    match s1 with
    | [] => none
    | d :: r =>
      if ¬ d.isDigit then none
      else
        let intPart : Str × Str :=
          if d = '0' then (['0'], r)
          else ((d :: r).takeWhile Char.isDigit, (d :: r).dropWhile Char.isDigit)
        match intPart with
        | (intDs, s2) =>
          let fracRes : Option (Str × Str) :=
            match s2 with
            | c2 :: r2 =>
              if c2 = '.' then
                let ds := r2.takeWhile Char.isDigit
                if ds = [] then none else some ('.' :: ds, r2.dropWhile Char.isDigit)
              else some ([], s2)
            | [] => some ([], s2)
          match fracRes with
          | none => none
          | some (fracDs, s3) =>
            let expRes : Option (Str × Str) :=
              match s3 with
              | e :: r3 =>
                if e = 'e' ∨ e = 'E' then
                  let sgn2 : Str × Str :=
                    match r3 with
                    | c3 :: r4 => if c3 = '+' ∨ c3 = '-' then ([c3], r4) else ([], r3)
                    | [] => ([], r3)
                  match sgn2 with
                  | (sgn2Chars, r4) =>
                    let ds := r4.takeWhile Char.isDigit
                    if ds = [] then none
                    else some (e :: (sgn2Chars ++ ds), r4.dropWhile Char.isDigit)
                else some ([], s3)
              | [] => some ([], s3)
            match expRes with
            | none => none
            | some (expDs, s4) =>
              if fracDs = [] ∧ expDs = [] then
                let v : Int := Int.ofNat (digitsToNat intDs)
                some (JValue.num (if neg then -v else v), s4)
              else
                some (JValue.fnum (sgnChars ++ intDs ++ fracDs ++ expDs), s4)

/-- Parsing mode of the recursive JSON scanner: a single value, the
members of an object being built, or the items of an array being built. -/
inductive PMode where
  | value : PMode
  | members (acc : List (Str × JValue)) : PMode
  | items (acc : List JValue) : PMode

/-- Recursive descent scanner behind json.loads, fuelled for
termination. In value mode it dispatches on the first non-space
character (object, array, string, true/false/null, NaN/Infinity, or a
number); member and item modes consume comma-separated entries until the
closing bracket. -/
def parseF : Nat → PMode → Str → Option (JValue × Str)
  | 0, _, _ => none
  | fuel + 1, PMode.value, s =>
    match skipWs s with
    | [] => none
    | c :: rest =>
      if c = lbrace then
        match skipWs rest with
        | c2 :: r2 =>
          if c2 = rbrace then some (JValue.obj [], r2)
          else parseF fuel (PMode.members []) (c2 :: r2)
        | [] => none
      else if c = '[' then
        match skipWs rest with
        | c2 :: r2 =>
          if c2 = ']' then some (JValue.arr [], r2)
          else parseF fuel (PMode.items []) (c2 :: r2)
        | [] => none
      else if c = '\"' then
        match parseStringBody (rest.length + 1) rest with
        | some (s1, r) => some (JValue.str s1, r)
        | none => none
      else if c = 't' then
        if rest.take 3 = ['r', 'u', 'e'] then some (JValue.bool true, rest.drop 3) else none
      else if c = 'f' then
        if rest.take 4 = ['a', 'l', 's', 'e'] then some (JValue.bool false, rest.drop 4) else none
      else if c = 'n' then
        if rest.take 3 = ['u', 'l', 'l'] then some (JValue.null, rest.drop 3) else none
      else if c = 'N' then
        if rest.take 2 = ['a', 'N'] then some (JValue.fnum (tl "NaN"), rest.drop 2) else none
      else if c = 'I' then
        if rest.take 7 = tl "nfinity" then some (JValue.fnum (tl "Infinity"), rest.drop 7) else none
      else if c = '-' then
        if rest.take 8 = tl "Infinity" then some (JValue.fnum (tl "-Infinity"), rest.drop 8)
        else parseNumber (c :: rest)
      else if c.isDigit then parseNumber (c :: rest)
      else none
  | fuel + 1, PMode.members acc, s =>
    match skipWs s with
    | [] => none
    | c :: rest =>
      if c = '\"' then
        match parseStringBody (rest.length + 1) rest with
        | none => none
        | some (key, r2) =>
          match skipWs r2 with
          | c2 :: r3 =>
            if c2 = ':' then
              match parseF fuel PMode.value r3 with
              | none => none
              | some (v, r4) =>
                match skipWs r4 with
                | c3 :: r5 =>
                  if c3 = ',' then parseF fuel (PMode.members (dictInsert acc key v)) r5
                  else if c3 = rbrace then some (JValue.obj (dictInsert acc key v), r5)
                  else none
                | [] => none
            else none
          | [] => none
      else none
  | fuel + 1, PMode.items acc, s =>
    match parseF fuel PMode.value s with
    | none => none
    | some (v, r) =>
      match skipWs r with
      | c :: r2 =>
        if c = ',' then parseF fuel (PMode.items (acc ++ [v])) r2
        else if c = ']' then some (JValue.arr (acc ++ [v]), r2)
        else none
      | [] => none

/-- Python json.loads: parse exactly one JSON value, allowing only
whitespace around it; any decode error becomes `none` (the ValueError
that parse_tool_call catches). -/
def json_loads (s : Str) : Option JValue :=
  match parseF (3 * s.length + 8) PMode.value s with
  | some (v, rest) => if skipWs rest = [] then some v else none
  | none => none

/-- Pydantic models Controller and Memory (declared schemas; never
enforced by the scenario loop). -/
structure Controller where
  type : Str
  count : Int

structure Memory where
  type : Str
  size_mb : Int

/-- Pydantic model ECU (declared schema; never enforced by the scenario
loop). Optional fields default to none or the empty list as in the
source. -/
structure ECU where
  id : Str
  cpu : Option Str := none
  memories : Option (List Memory) := some []
  controllers : Option (List Controller) := some []
  notes : Option Str := none
  uncertainty : Option (List Str) := some []

/-- Pydantic model ToolCall: a required string field tool_name and a
required dict field parameters. -/
structure ToolCall where
  tool_name : Str
  parameters : List (Str × JValue)

/-- Construction of a ToolCall from decoded JSON data, modelling
pydantic validation of the two required fields: the data must be an
object, tool_name must be present and a string, parameters must be
present and an object; extra fields are ignored (pydantic default).
A missing or ill-typed field raises ValidationError, i.e. yields none. -/
def toolCallValidate (data : JValue) : Option ToolCall :=
  match data with
  | JValue.obj fields =>
    match lookupField (tl "tool_name") fields, lookupField (tl "parameters") fields with
    | some (JValue.str name), some (JValue.obj params) =>
      some { tool_name := name, parameters := params }
    | _, _ => none
  | _ => none

/-- Python str.index for a single character: index of the first
occurrence, none when absent (where the source raises ValueError). -/
def pyIndex : Str → Char → Option Nat
  | [], _ => none
  | c :: rest, t =>
    if c = t then some 0
    else
      match pyIndex rest t with
      | some k => some (k + 1)
      | none => none

/-- Python str.rfind for a single character: index of the last
occurrence, none where the source returns -1. -/
def pyRFind : Str → Char → Option Nat
  | [], _ => none
  | c :: rest, t =>
    match pyRFind rest t with
    | some k => some (k + 1)
    | none => if c = t then some 0 else none

/-- extract_first_json: slice from the first opening brace through the
last closing brace, Python slice semantics included — when rfind yields
-1 (no closing brace) the slice upper bound is 0, and an upper bound at
or below the lower bound yields the empty string. The ValueError from
index when no opening brace exists is caught and becomes none. -/
def extract_first_json (text : Str) : Option Str :=
  match pyIndex text lbrace with
  | none => none
  | some start =>
    let stop : Nat :=
      match pyRFind text rbrace with
      | none => 0
      | some e => e + 1
    some ((text.drop start).take (stop - start))

/-- parse_tool_call: extract the candidate substring; a none or empty
extraction is falsy and yields none; then json.loads plus ToolCall
validation, with every decode or validation exception caught and turned
into none (the source prints a diagnostic and returns None). -/
def parse_tool_call (output : Str) : Option ToolCall :=
  match extract_first_json output with
  | none => none
  | some j =>
    if j = [] then none
    else
      match json_loads j with
      | none => none
      | some data => toolCallValidate data

/-- The TOOL_DOC constant, transcribed byte for byte from the source
(brace characters written with hex escapes). -/
def TOOL_DOC : Str := tl (
  "\nAvailable tools (call exactly one):\n\n1) add_ecu\n   parameters:\n     - id (string)\n     - cpu (string, optional)\n     - memories (list of \x7btype:string, size_mb:int\x7d, optional)\n     - controllers (list of \x7btype:string, count:int\x7d, optional)\n     - uncertainty (list of strings, optional)\n\n"
  ++ "2) add_protocol\n   parameters:\n     - protocol (string or list of strings)  // allowed values: CAN, Ethernet, LIN, FlexRay\n\n3) add_hwip_block\n   parameters:\n     - ecu_id (string)\n     - type (string)  // e.g., I2C, SPI, UART\n     - count (int)\n\n"
  ++ "4) validate_configuration\n   parameters:\n     - config (object)  // pass current config object\n\n5) create_configuration\n   parameters:\n     - ecu_count (int, optional)\n     - ecus (list of ECU objects)\n     - protocols (list of strings)\n     - power_budget_w (float, optional)\n     - notes (string, optional)\n\n"
  ++ "Rules:\n- You must output ONLY a single JSON object: \n  \x7b \"tool_name\": \"tool_name_here\", \"parameters\": \x7b ... \x7d \x7d\n- DO NOT output any extra text, explanation, or markdown.\n- If uncertain, set a field to null and include its name in \"uncertainty\".\n")

/-- The three-double-quote delimiter around the user instruction in the
prompt template. -/
def tripleQuote : Str := ['\"', '\"', '\"']

/-- PROMPT_TEMPLATE.format(tool_doc=..., user_input=...): the template
has exactly the two replacement fields and no literal braces, so
formatting is plain concatenation of the literal segments with the two
values; no escaping of any kind is applied to either value. -/
def PROMPT_TEMPLATE_format (tool_doc user_input : Str) : Str :=
  tl "You are an assistant that converts a user instruction into a single tool call.\n"
  ++ tool_doc
  ++ tl "\n\nUser instruction:\n" ++ tripleQuote
  ++ user_input
  ++ tripleQuote ++ tl "\n\nReturn exactly one JSON object representing the tool call.\n"

/-- ASCII whitespace stripped by Python str.strip (space, tab, newline,
carriage return, vertical tab, form feed). -/
def pyIsSpace (c : Char) : Bool :=
  c == ' ' || c == '\t' || c == '\n' || c == '\r' || c == Char.ofNat 11 || c == Char.ofNat 12

/-- Python str.strip(): drop leading and trailing whitespace. -/
def pyStrip (s : Str) : Str :=
  ((s.dropWhile pyIsSpace).reverse.dropWhile pyIsSpace).reverse

/-- Outcome of one attempt to run the external command: either the
process started and exited with a code, stdout and stderr, or it could
not be started at all (exec failure). -/
inductive ProcOutcome where
  | exited (code : Nat) (stdout : Str) (stderr : Str) : ProcOutcome
  | startFailure (msg : Str) : ProcOutcome

/-- A Python exception that escapes uncaught. subprocess.run raises
OSError (e.g. FileNotFoundError) when the executable cannot be started;
nothing in the source catches it. -/
inductive PyExc where
  | osError (msg : Str) : PyExc

/-- One line of console output of the runner, abstracted from its print
formatting. -/
inductive OutLine where
  | testing (model : Str) : OutLine
  | header (sid : Str) : OutLine
  | ollamaError (stderr : Str) : OutLine
  | toolOk (name : Str) (params : List (Str × JValue)) : OutLine
  | parseFailed : OutLine
  | timeLine (t : Str) : OutLine

/-- ollama_run: run the external process with the prompt on stdin.
check=True turns a non-zero exit into CalledProcessError, which the
source catches: it prints the stderr diagnostic and returns the empty
string. A zero exit returns stripped stdout. A start failure raises
OSError, which the except clause (subprocess.CalledProcessError only)
does not catch, so it propagates. Returns the printed lines together
with the returned string. -/
def ollama_run (invoke : Str → Str → ProcOutcome) (model prompt : Str) :
    Except PyExc (List OutLine × Str) :=
  match invoke model prompt with
  | ProcOutcome.exited code stdout stderr =>
    if code = 0 then Except.ok ([], pyStrip stdout)
    else Except.ok ([OutLine.ollamaError stderr], [])
  | ProcOutcome.startFailure msg => Except.error (PyExc.osError msg)

/-- The fixed scenario fixture list. -/
def SCENARIOS : List (Str × Str) :=
  [ (tl "S1_simple_ecu", tl "Create an ECU with Cortex-M4 and 2 CAN controllers."),
    (tl "S2_protocols", tl "The system should support both CAN and Ethernet communication."),
    (tl "S3_memory", tl "Add an ECU with Cortex-R5, 4MB Flash memory and 2 SPI controllers."),
    (tl "S4_hwip", tl "Attach an I2C block to ECU-1."),
    (tl "S5_validate", tl "Check if the configuration is valid."),
    (tl "S6_ambiguous", tl "Create an ECU with Cortex-M6 and 3 CAN controllers.") ]

/-- One iteration of the loop body of run_tests: print the scenario
header, build the prompt, invoke the model (whose uncaught exceptions
propagate), parse the output, print the success line (tool name and
parameters) or the failure marker, and print the elapsed time, which is
reported whether or not parsing succeeded. -/
def runScenario (invoke : Str → Str → ProcOutcome) (el : Str) (model sid user : Str) :
    Except PyExc (List OutLine) :=
  match ollama_run invoke model (PROMPT_TEMPLATE_format TOOL_DOC user) with
  | Except.error e => Except.error e
  | Except.ok (plog, out) =>
    let resultLines : List OutLine :=
      match parse_tool_call out with
      | some call => [OutLine.toolOk call.tool_name call.parameters]
      | none => [OutLine.parseFailed]
    Except.ok (OutLine.header sid :: (plog ++ resultLines ++ [OutLine.timeLine el]))

/-- The scenario loop of run_tests over the remaining scenarios, with
the index used only to pick the per-scenario elapsed-time reading from
the clock oracle. An exception escaping an iteration aborts the loop. -/
def runScenarios (invoke : Str → Str → ProcOutcome) (elapsed : Nat → Str) (model : Str) :
    Nat → List (Str × Str) → Except PyExc (List OutLine)
  | _, [] => Except.ok []
  | i, (sid, user) :: rest =>
    match runScenario invoke (elapsed i) model sid user with
    | Except.error e => Except.error e
    | Except.ok lines =>
      match runScenarios invoke elapsed model (i + 1) rest with
      | Except.error e => Except.error e
      | Except.ok more => Except.ok (lines ++ more)

/-- run_tests: print the testing banner and run every scenario in list
order. -/
def run_tests (invoke : Str → Str → ProcOutcome) (elapsed : Nat → Str) (model : Str) :
    Except PyExc (List OutLine) :=
  match runScenarios invoke elapsed model 0 SCENARIOS with
  | Except.error e => Except.error e
  | Except.ok lines => Except.ok (OutLine.testing model :: lines)

/-- Exit status of the process after argument parsing has succeeded: a
normal return from run_tests exits 0, an uncaught exception makes the
interpreter exit 1. -/
def mainExitCode (invoke : Str → Str → ProcOutcome) (elapsed : Nat → Str) (model : Str) : Nat :=
  match run_tests invoke elapsed model with
  | Except.ok _ => 0
  | Except.error _ => 1

/-- An invocation oracle for a host where the external executable cannot
be started at all: every attempt fails at exec time. -/
def invokeStartFail : Str → Str → ProcOutcome :=
  fun _ _ => ProcOutcome.startFailure (tl "No such file or directory")

/-- An invocation oracle whose process always starts and exits with
status 1 and a diagnostic on stderr. -/
def invokeExitOne : Str → Str → ProcOutcome :=
  fun _ _ => ProcOutcome.exited 1 [] (tl "model load failed")

/-- A decoded object carrying the two required fields plus an extra
top-level field. -/
def extraFieldExample : List (Str × JValue) :=
  [ (tl "tool_name", JValue.str (tl "add_protocol")),
    (tl "parameters", JValue.obj []),
    (tl "ignored_extra_field", JValue.num 7) ]

/-! ## Helper lemmas about the extractor primitives -/

theorem pyIndex_eq_none_of_not_mem (s : Str) (c : Char) (h : c ∉ s) :
    pyIndex s c = none := by
  induction s with
  | nil => rfl
  | cons a rest ih =>
    have hne : ¬ a = c := fun hac => h (hac ▸ List.mem_cons_self a rest)
    have hnm : c ∉ rest := fun hm => h (List.mem_cons_of_mem a hm)
    simp [pyIndex, hne, ih hnm]

theorem pyIndex_isSome_of_mem (s : Str) (c : Char) (h : c ∈ s) :
    ∃ i, pyIndex s c = some i := by
  induction s with
  | nil => cases h
  | cons a rest ih =>
    by_cases hac : a = c
    · exact ⟨0, by simp [pyIndex, hac]⟩
    · have hm : c ∈ rest := by
        rcases List.mem_cons.mp h with h1 | h2
        · exact absurd h1.symm hac
        · exact h2
      obtain ⟨i, hi⟩ := ih hm
      exact ⟨i + 1, by simp [pyIndex, hac, hi]⟩

theorem pyIndex_first (s : Str) (c : Char) :
    ∀ i, s.get? i = some c → (∀ k, k < i → s.get? k ≠ some c) →
      pyIndex s c = some i := by
  induction s with
  | nil => intro i hi _; simp at hi
  | cons a rest ih =>
    intro i hi hb
    cases i with
    | zero =>
      rw [List.get?_cons_zero] at hi
      injection hi with hac
      simp [pyIndex, hac]
    | succ i0 =>
      have hane : ¬ a = c := by
        have h0 := hb 0 (Nat.succ_pos i0)
        rw [List.get?_cons_zero] at h0
        exact fun hac => h0 (by rw [hac])
      rw [List.get?_cons_succ] at hi
      have hb0 : ∀ k, k < i0 → rest.get? k ≠ some c := by
        intro k hk
        have hk1 := hb (k + 1) (Nat.succ_lt_succ hk)
        rwa [List.get?_cons_succ] at hk1
      simp [pyIndex, hane, ih i0 hi hb0]

theorem pyRFind_eq_none_of_not_mem (s : Str) (c : Char) (h : c ∉ s) :
    pyRFind s c = none := by
  induction s with
  | nil => rfl
  | cons a rest ih =>
    have hne : ¬ a = c := fun hac => h (hac ▸ List.mem_cons_self a rest)
    have hnm : c ∉ rest := fun hm => h (List.mem_cons_of_mem a hm)
    simp [pyRFind, hne, ih hnm]

theorem pyRFind_last (s : Str) (c : Char) :
    ∀ j, s.get? j = some c → (∀ k, j < k → s.get? k ≠ some c) →
      pyRFind s c = some j := by
  induction s with
  | nil => intro j hj _; simp at hj
  | cons a rest ih =>
    intro j hj ha
    cases j with
    | zero =>
      rw [List.get?_cons_zero] at hj
      injection hj with hac
      have hnm : c ∉ rest := by
        intro hm
        obtain ⟨k, hk⟩ := List.get?_of_mem hm
        exact ha (k + 1) (Nat.succ_pos k) (by rwa [List.get?_cons_succ])
      simp [pyRFind, pyRFind_eq_none_of_not_mem rest c hnm, hac]
    | succ j0 =>
      rw [List.get?_cons_succ] at hj
      have ha0 : ∀ k, j0 < k → rest.get? k ≠ some c := by
        intro k hk
        have hk1 := ha (k + 1) (Nat.succ_lt_succ hk)
        rwa [List.get?_cons_succ] at hk1
      simp [pyRFind, ih j0 hj ha0]

theorem get?_pred_length_of_getLast? (s : Str) (c : Char) (h : s.getLast? = some c) :
    s.get? (s.length - 1) = some c := by
  induction s with
  | nil => simp at h
  | cons a rest ih =>
    cases rest with
    | nil =>
      simp only [List.getLast?_singleton] at h
      injection h with hac
      simp [hac]
    | cons b t =>
      rw [List.getLast?_cons_cons] at h
      have hbt := ih h
      have hlen : (a :: b :: t).length - 1 = t.length + 1 := by
        simp [List.length_cons]
      rw [hlen, List.get?_cons_succ]
      have hlen2 : (b :: t).length - 1 = t.length := by simp [List.length_cons]
      rwa [hlen2] at hbt

theorem get?_ne_of_ge_length (s : Str) (c : Char) (k : Nat) (h : s.length ≤ k) :
    s.get? k ≠ some c := by
  rw [List.get?_eq_none.mpr h]
  simp

/-! ## Claim theorems -/

/-- Claim C1, counterexample: the claim says every invocation failure,
including an executable that cannot be started at all, is caught locally
with a diagnostic printed and the empty string returned. On a host where
the external command cannot be started, ollama_run instead lets the
OSError escape (the source catches only subprocess.CalledProcessError),
so no empty string is substituted. -/
theorem claim1_start_failure_uncaught :
    ollama_run invokeStartFail (tl "mistral") (tl "prompt")
      = Except.error (PyExc.osError (tl "No such file or directory")) := rfl

/-- Claim C1, amended: for every invocation failure in which the
external process starts and exits non-zero, the failure is caught
locally — the stderr diagnostic is printed, ollama_run returns the empty
string instead of raising, and the scenario iteration proceeds to the
parse step (which fails on the empty string) and completes normally, so
the loop goes on to the next scenario. -/
theorem claim1_invocation_failure_caught
    (invoke : Str → Str → ProcOutcome) (model sid user stdout stderr el : Str) (code : Nat)
    (hrun : invoke model (PROMPT_TEMPLATE_format TOOL_DOC user)
      = ProcOutcome.exited code stdout stderr)
    (hcode : code ≠ 0) :
    ollama_run invoke model (PROMPT_TEMPLATE_format TOOL_DOC user)
      = Except.ok ([OutLine.ollamaError stderr], []) ∧
    runScenario invoke el model sid user
      = Except.ok [OutLine.header sid, OutLine.ollamaError stderr, OutLine.parseFailed,
          OutLine.timeLine el] := by
  have h1 : ollama_run invoke model (PROMPT_TEMPLATE_format TOOL_DOC user)
      = Except.ok ([OutLine.ollamaError stderr], []) := by
    simp [ollama_run, hrun, hcode]
  refine ⟨h1, ?_⟩
  simp [runScenario, h1, parse_tool_call, extract_first_json, pyIndex]

/-- Witness for the amended C1 at a concrete failing invocation. -/
theorem claim1_invocation_failure_caught_witness :
    ollama_run invokeExitOne (tl "mistral") (PROMPT_TEMPLATE_format TOOL_DOC (tl "hello"))
      = Except.ok ([OutLine.ollamaError (tl "model load failed")], []) ∧
    runScenario invokeExitOne (tl "0.42") (tl "mistral") (tl "S0") (tl "hello")
      = Except.ok [OutLine.header (tl "S0"), OutLine.ollamaError (tl "model load failed"),
          OutLine.parseFailed, OutLine.timeLine (tl "0.42")] :=
  claim1_invocation_failure_caught invokeExitOne (tl "mistral") (tl "S0") (tl "hello") []
    (tl "model load failed") (tl "0.42") 1 rfl (by decide)

/-- Claim C2, counterexample: the claim says no combination of
per-scenario invocation failures can reach the exit code and the process
always exits 0; but when the external command cannot be started the
uncaught OSError aborts the scenario loop and the interpreter exits 1. -/
theorem claim2_start_failure_exit_one :
    mainExitCode invokeStartFail (fun _ => tl "0.00") (tl "mistral") = 1 := rfl

theorem ollama_run_always_ok (invoke : Str → Str → ProcOutcome)
    (h : ∀ m p, ∃ code stdout stderr, invoke m p = ProcOutcome.exited code stdout stderr)
    (m p : Str) : ∃ r, ollama_run invoke m p = Except.ok r := by
  obtain ⟨code, stdout, stderr, he⟩ := h m p
  by_cases hc : code = 0
  · exact ⟨([], pyStrip stdout), by simp [ollama_run, he, hc]⟩
  · exact ⟨([OutLine.ollamaError stderr], []), by simp [ollama_run, he, hc]⟩

theorem runScenario_always_ok (invoke : Str → Str → ProcOutcome)
    (h : ∀ m p, ∃ code stdout stderr, invoke m p = ProcOutcome.exited code stdout stderr)
    (el model sid user : Str) :
    ∃ lines, runScenario invoke el model sid user = Except.ok lines := by
  obtain ⟨r, hok⟩ := ollama_run_always_ok invoke h model (PROMPT_TEMPLATE_format TOOL_DOC user)
  obtain ⟨plog, out⟩ := r
  cases hp : parse_tool_call out with
  | none =>
    exact ⟨OutLine.header sid :: (plog ++ [OutLine.parseFailed] ++ [OutLine.timeLine el]),
      by simp [runScenario, hok, hp]⟩
  | some call =>
    exact ⟨OutLine.header sid
        :: (plog ++ [OutLine.toolOk call.tool_name call.parameters] ++ [OutLine.timeLine el]),
      by simp [runScenario, hok, hp]⟩

theorem runScenarios_always_ok (invoke : Str → Str → ProcOutcome) (elapsed : Nat → Str)
    (model : Str)
    (h : ∀ m p, ∃ code stdout stderr, invoke m p = ProcOutcome.exited code stdout stderr) :
    ∀ (scs : List (Str × Str)) (i : Nat),
      ∃ lines, runScenarios invoke elapsed model i scs = Except.ok lines := by
  intro scs
  induction scs with
  | nil => intro i; exact ⟨[], rfl⟩
  | cons sc rest ih =>
    intro i
    obtain ⟨sid, user⟩ := sc
    obtain ⟨l1, h1⟩ := runScenario_always_ok invoke h (elapsed i) model sid user
    obtain ⟨l2, h2⟩ := ih (i + 1)
    refine ⟨l1 ++ l2, ?_⟩
    unfold runScenarios
    rw [h1, h2]

/-- Claim C2, amended: for every run in which every invocation at least
starts (the external process exits, with any exit code, any stdout and
any stderr — which covers every combination of per-scenario parse
failures and of caught non-zero-exit invocation failures), no failure
aborts the scenario loop or reaches the exit code: the process exits 0.
An invocation that cannot be started at all is the exception, as shown
by the counterexample. -/
theorem claim2_always_exit_zero (invoke : Str → Str → ProcOutcome) (elapsed : Nat → Str)
    (model : Str)
    (h : ∀ m p, ∃ code stdout stderr, invoke m p = ProcOutcome.exited code stdout stderr) :
    mainExitCode invoke elapsed model = 0 := by
  obtain ⟨lines, hl⟩ := runScenarios_always_ok invoke elapsed model h SCENARIOS 0
  simp [mainExitCode, run_tests, hl]

/-- Witness for the amended C2: a run whose every invocation exits 1
(so every scenario fails) still exits 0. -/
theorem claim2_always_exit_zero_witness :
    mainExitCode invokeExitOne (fun _ => tl "0.00") (tl "mistral") = 0 :=
  claim2_always_exit_zero invokeExitOne (fun _ => tl "0.00") (tl "mistral")
    (fun _ _ => ⟨1, [], tl "model load failed", rfl⟩)

/-- Claim C3: the extractor returns none (the caught ValueError) when
the input has no opening brace; and whenever the input has a first
opening brace at index i and a last closing brace at index j with
i at most j, it returns exactly the substring from i through j
inclusive. -/
theorem claim3_extract_first_to_last_brace (text : Str) :
    (lbrace ∉ text → extract_first_json text = none) ∧
    (∀ i j : Nat, text.get? i = some lbrace →
      (∀ k, k < i → text.get? k ≠ some lbrace) →
      text.get? j = some rbrace →
      (∀ k, k < text.length → j < k → text.get? k ≠ some rbrace) →
      i ≤ j →
      extract_first_json text = some ((text.drop i).take (j + 1 - i))) := by
  constructor
  · intro h
    simp [extract_first_json, pyIndex_eq_none_of_not_mem text lbrace h]
  · intro i j hi hbi hj haj _hij
    have haj2 : ∀ k, j < k → text.get? k ≠ some rbrace := by
      intro k hk
      by_cases hl : k < text.length
      · exact haj k hl hk
      · exact get?_ne_of_ge_length text rbrace k (Nat.le_of_not_lt hl)
    simp [extract_first_json, pyIndex_first text lbrace i hi hbi,
      pyRFind_last text rbrace j hj haj2]

/-- Witness for C3 on concrete text with surrounding prose on both
sides. -/
theorem claim3_extract_witness :
    extract_first_json (tl "ab\x7bc\x7dd")
      = some (((tl "ab\x7bc\x7dd").drop 2).take (4 + 1 - 2)) :=
  (claim3_extract_first_to_last_brace (tl "ab\x7bc\x7dd")).2 2 4
    (by decide) (by decide) (by decide) (by decide) (by decide)

/-- Claim C4: pydantic treats parameters as a required field, so a
decoded object with no parameters key fails shape validation and yields
no call (it is not defaulted to an empty object); in particular the
concrete text consisting of an object with only a tool_name field equal
to add_ecu parses to None. -/
theorem claim4_missing_parameters_fails :
    (∀ fields : List (Str × JValue), lookupField (tl "parameters") fields = none →
      toolCallValidate (JValue.obj fields) = none) ∧
    parse_tool_call (tl "\x7b\"tool_name\": \"add_ecu\"\x7d") = none := by
  constructor
  · intro fields h
    simp only [toolCallValidate, h]
    rcases hx : lookupField (tl "tool_name") fields with _ | val
    · rfl
    · cases val <;> rfl
  · rfl

/-- Witness for C4 at the decoded object with only a tool_name field. -/
theorem claim4_missing_parameters_fails_witness :
    toolCallValidate (JValue.obj [(tl "tool_name", JValue.str (tl "add_ecu"))]) = none :=
  claim4_missing_parameters_fails.1 [(tl "tool_name", JValue.str (tl "add_ecu"))] rfl

/-- Claim C5: for every decoded JSON object whose tool_name field is a
string and whose parameters field is an object, validation succeeds with
exactly those two values, whatever other top-level fields the object
carries — extra fields are ignored, not rejected. -/
theorem claim5_extra_fields_ignored (fields : List (Str × JValue)) (name : Str)
    (params : List (Str × JValue))
    (h1 : lookupField (tl "tool_name") fields = some (JValue.str name))
    (h2 : lookupField (tl "parameters") fields = some (JValue.obj params)) :
    toolCallValidate (JValue.obj fields) = some { tool_name := name, parameters := params } := by
  simp only [toolCallValidate, h1, h2]

/-- Witness for C5 at an object carrying an extra top-level field. -/
theorem claim5_extra_fields_ignored_witness :
    toolCallValidate (JValue.obj extraFieldExample)
      = some { tool_name := tl "add_protocol", parameters := [] } :=
  claim5_extra_fields_ignored extraFieldExample (tl "add_protocol") [] rfl rfl

/-- Claim C6: the concrete add_protocol tool-call text decodes and
validates to a ToolCall with tool_name add_protocol and a parameters
mapping sending protocol to the string CAN. -/
theorem claim6_add_protocol_success :
    parse_tool_call
        (tl "\x7b\"tool_name\":\"add_protocol\",\"parameters\":\x7b\"protocol\":\"CAN\"\x7d\x7d")
      = some { tool_name := tl "add_protocol",
               parameters := [(tl "protocol", JValue.str (tl "CAN"))] } := rfl

/-- Claim C7: the extractor is idempotent on already-extracted input —
any string that starts with an opening brace and ends with a closing
brace is returned unchanged. -/
theorem claim7_extract_idempotent (s : Str) (h1 : s.head? = some lbrace)
    (h2 : s.getLast? = some rbrace) : extract_first_json s = some s := by
  cases s with
  | nil => simp at h1
  | cons a rest =>
    rw [List.head?_cons] at h1
    injection h1 with ha
    have hidx : pyIndex (a :: rest) lbrace = some 0 := by simp [pyIndex, ha]
    have hlast : (a :: rest).get? ((a :: rest).length - 1) = some rbrace :=
      get?_pred_length_of_getLast? (a :: rest) rbrace h2
    have hafter : ∀ k, (a :: rest).length - 1 < k → (a :: rest).get? k ≠ some rbrace := by
      intro k hk
      have hle : (a :: rest).length ≤ k := by
        have hx : (a :: rest).length - 1 + 1 ≤ k := hk
        simpa [List.length_cons] using hx
      exact get?_ne_of_ge_length _ rbrace k hle
    have hrf : pyRFind (a :: rest) rbrace = some ((a :: rest).length - 1) :=
      pyRFind_last (a :: rest) rbrace ((a :: rest).length - 1) hlast hafter
    simp [extract_first_json, hidx, hrf, List.length_cons]

/-- Witness for C7 at a two-character brace pair. -/
theorem claim7_extract_idempotent_witness :
    extract_first_json (tl "\x7b\x7d") = some (tl "\x7b\x7d") :=
  claim7_extract_idempotent (tl "\x7b\x7d") (by decide) (by decide)

/-- Claim C8: the prompt builder is pure textual substitution — for
every instruction string the output contains the tool documentation
block verbatim and the instruction verbatim between the two
triple-quote delimiters, with no escaping performed and no error
possible. -/
theorem claim8_prompt_verbatim (user_input : Str) :
    (∃ a b : Str, PROMPT_TEMPLATE_format TOOL_DOC user_input = a ++ TOOL_DOC ++ b) ∧
    (∃ a b : Str, PROMPT_TEMPLATE_format TOOL_DOC user_input
      = a ++ (tripleQuote ++ user_input ++ tripleQuote) ++ b) := by
  constructor
  · refine ⟨tl "You are an assistant that converts a user instruction into a single tool call.\n",
      tl "\n\nUser instruction:\n" ++ tripleQuote ++ user_input ++ tripleQuote
        ++ tl "\n\nReturn exactly one JSON object representing the tool call.\n", ?_⟩
    simp [PROMPT_TEMPLATE_format, List.append_assoc]
  · refine ⟨tl "You are an assistant that converts a user instruction into a single tool call.\n"
        ++ TOOL_DOC ++ tl "\n\nUser instruction:\n",
      tl "\n\nReturn exactly one JSON object representing the tool call.\n", ?_⟩
    simp [PROMPT_TEMPLATE_format, List.append_assoc]

/-- Claim C9: on input with an opening brace but no closing brace, or
whose last closing brace precedes its first opening brace, the extractor
returns the empty string (not none and not a brace-delimited substring),
and parse_tool_call treats that empty string as falsy and returns no
call. -/
theorem claim9_unmatched_brace_empty (text : Str) :
    (lbrace ∈ text → rbrace ∉ text →
      extract_first_json text = some [] ∧ parse_tool_call text = none) ∧
    (∀ i j : Nat, text.get? i = some lbrace →
      (∀ k, k < i → text.get? k ≠ some lbrace) →
      text.get? j = some rbrace →
      (∀ k, k < text.length → j < k → text.get? k ≠ some rbrace) →
      j < i →
      extract_first_json text = some [] ∧ parse_tool_call text = none) := by
  have pempty : ∀ t : Str, extract_first_json t = some [] → parse_tool_call t = none := by
    intro t ht
    simp [parse_tool_call, ht]
  constructor
  · intro hin hout
    obtain ⟨i, hi⟩ := pyIndex_isSome_of_mem text lbrace hin
    have hex : extract_first_json text = some [] := by
      simp [extract_first_json, hi, pyRFind_eq_none_of_not_mem text rbrace hout]
    exact ⟨hex, pempty text hex⟩
  · intro i j hi hbi hj haj hji
    have haj2 : ∀ k, j < k → text.get? k ≠ some rbrace := by
      intro k hk
      by_cases hl : k < text.length
      · exact haj k hl hk
      · exact get?_ne_of_ge_length text rbrace k (Nat.le_of_not_lt hl)
    have hex : extract_first_json text = some [] := by
      have hz : j + 1 - i = 0 := Nat.sub_eq_zero_of_le hji
      simp [extract_first_json, pyIndex_first text lbrace i hi hbi,
        pyRFind_last text rbrace j hj haj2, hz]
    exact ⟨hex, pempty text hex⟩

/-- Witness for C9 on text with an opening brace and no closing
brace. -/
theorem claim9_unmatched_brace_empty_witness :
    extract_first_json (tl "ab\x7bcd") = some [] ∧ parse_tool_call (tl "ab\x7bcd") = none :=
  (claim9_unmatched_brace_empty (tl "ab\x7bcd")).1 (by decide) (by decide)

/-- Claim C10: parse_tool_call is total — on every input it returns
either a well-formed ToolCall or none; every decode and validation
exception is caught internally, so nothing escapes. -/
theorem claim10_parse_tool_call_total (output : Str) :
    parse_tool_call output = none ∨ ∃ call : ToolCall, parse_tool_call output = some call := by
  cases hp : parse_tool_call output with
  | none => exact Or.inl rfl
  | some call => exact Or.inr ⟨call, rfl⟩

end OrchestratorEval
